import Mathlib

/-!
Verification of the RealTimeStock portfolio accounting and stock analytics
engine against its specification.

The embedding translates the Python sources:
  * `src/services/portfolio_service.py` — `compute_positions_simple`,
    `get_portfolio_summary` (positions, valuation, totals);
  * `src/database/crud.py` — `get_user_transactions` (the transaction feed);
  * `src/core/analyzer.py` — `compute_daily_return`, `compute_monthly_return`,
    `compute_volatility`, `compute_moving_average`,
    `compute_returns_from_prices`, `analyze_stock`, `detect_signal`.

Python `Decimal` values are modelled as `ℚ` (exact rational arithmetic; the
28-significant-digit context rounding of `Decimal` division is abstracted
away), Python `float` values as `ℚ` where the computation is rational and as
`ℝ` where a square root is taken.  Python `ZeroDivisionError` is modelled by
`Option`-valued "checked" variants in which every division is guarded
(`sdiv`); a checked function returning `some` on all inputs is the formal
statement that the source never raises on a division.  Timestamps
(`transaction_date`, price-series dates) are modelled as natural numbers.
The presentation-only fields of the Python dataclasses (`summary`,
`computed_at`) are omitted: they render text and a wall-clock time.
-/

namespace RTStock

/-- Division that fails (like Python raising `ZeroDivisionError`) on a zero
divisor. -/
def sdiv (a b : ℚ) : Option ℚ :=
  if b = 0 then none else some (a / b)

/-- `database/models.py` `Transaction` row, restricted to the fields the
portfolio fold reads.  `side` models the `transaction_type` column
("BUY"/"SELL"), `transaction_date` the `occurred_at` timestamp. -/
inductive Side where
  | buy
  | sell
deriving DecidableEq, Repr

structure Txn where
  user_id : ℕ
  ticker : String
  stock_name : String
  side : Side
  quantity : ℚ
  price : ℚ
  fees : ℚ
  transaction_date : ℕ
deriving DecidableEq, Repr

/-- The per-ticker accumulator dict built by `compute_positions_simple`
(`portfolio_service.py` lines 120-127): keys `ticker`, `stock_name`,
`quantity`, `total_cost`, `realized_profit`. -/
structure TickerAcc where
  ticker : String
  stock_name : String
  quantity : ℚ
  total_cost : ℚ
  realized_profit : ℚ
deriving DecidableEq, Repr

/-- Fresh accumulator entry for a ticker first seen on transaction `t`
(`portfolio_service.py` lines 120-127). -/
def initAcc (t : Txn) : TickerAcc :=
  { ticker := t.ticker, stock_name := t.stock_name,
    quantity := 0, total_cost := 0, realized_profit := 0 }

/-- The SELL branch of `compute_positions_simple`
(`portfolio_service.py` lines 132-141):

    old_qty = by_ticker[ticker]["quantity"]
    if old_qty > 0:
        avg = by_ticker[ticker]["total_cost"] / old_qty
        sell_qty = min(qty, old_qty)
        cost_sold = sell_qty * avg
        by_ticker[ticker]["total_cost"] -= cost_sold
        proceeds = sell_qty * price - (fees * sell_qty / qty if qty else Decimal("0"))
        by_ticker[ticker]["realized_profit"] += proceeds - cost_sold
    by_ticker[ticker]["quantity"] -= qty
-/
def applySell (acc : TickerAcc) (qty price fees : ℚ) : TickerAcc :=
  if 0 < acc.quantity then
    let avg := acc.total_cost / acc.quantity
    let sell_qty := min qty acc.quantity
    let cost_sold := sell_qty * avg
    let proceeds := sell_qty * price - (if qty = 0 then 0 else fees * sell_qty / qty)
    { acc with quantity := acc.quantity - qty,
               total_cost := acc.total_cost - cost_sold,
               realized_profit := acc.realized_profit + (proceeds - cost_sold) }
  else
    { acc with quantity := acc.quantity - qty }

/-- `applySell` with each division checked, modelling `ZeroDivisionError`:
`none` means the Python code would raise.  The divisions are
`total_cost / old_qty` (reached only under `old_qty > 0`) and
`fees * sell_qty / qty` (guarded in the source by `if qty`). -/
def applySellChecked (acc : TickerAcc) (qty price fees : ℚ) : Option TickerAcc :=
  if 0 < acc.quantity then
    (sdiv acc.total_cost acc.quantity).bind fun avg =>
      let sell_qty := min qty acc.quantity
      let cost_sold := sell_qty * avg
      ((if qty = 0 then some 0 else sdiv (fees * sell_qty) qty)).bind fun feesAlloc =>
        let proceeds := sell_qty * price - feesAlloc
        some { acc with quantity := acc.quantity - qty,
                        total_cost := acc.total_cost - cost_sold,
                        realized_profit := acc.realized_profit + (proceeds - cost_sold) }
  else
    some { acc with quantity := acc.quantity - qty }

/-- One loop iteration applied to the accumulator entry of the transaction's
own ticker (`portfolio_service.py` lines 129-141). -/
def applyTxn (acc : TickerAcc) (t : Txn) : TickerAcc :=
  match t.side with
  | Side.buy =>
      { acc with quantity := acc.quantity + t.quantity,
                 total_cost := acc.total_cost + (t.quantity * t.price + t.fees) }
  | Side.sell => applySell acc t.quantity t.price t.fees

/-- One loop iteration of `compute_positions_simple` on the `by_ticker` dict,
modelled as an insertion-ordered association list: a missing ticker is
initialised and appended (Python dicts preserve insertion order), an existing
entry is updated in place. -/
def updateMap (m : List TickerAcc) (t : Txn) : List TickerAcc :=
  if m.any (fun a => a.ticker == t.ticker) then
    m.map (fun a => if a.ticker == t.ticker then applyTxn a t else a)
  else
    m ++ [applyTxn (initAcc t) t]

/-- The full `by_ticker` dict after folding a transaction list
(`portfolio_service.py` lines 112-141). -/
def computeByTicker (trans : List Txn) : List TickerAcc :=
  trans.foldl updateMap []

/-- `compute_positions_simple` applied to an already-fetched transaction
list: `positions = [v for v in by_ticker.values() if v["quantity"] > 0]`
(`portfolio_service.py` line 143). -/
def computePositionsSimpleList (trans : List Txn) : List TickerAcc :=
  (computeByTicker trans).filter (fun a => decide (0 < a.quantity))

/-- Descending-date comparison used by the transaction feed:
`order_by(desc(Transaction.transaction_date))` in `crud.py` line 90. -/
def dge (a b : Txn) : Prop := b.transaction_date ≤ a.transaction_date

instance : DecidableRel dge :=
  fun a b => Nat.decLe b.transaction_date a.transaction_date

/-- `crud.get_user_transactions(db, user_id)` (`crud.py` lines 83-93): filter
the table by user, order by `transaction_date` descending, truncate to the
default `limit=100`.  The database table is modelled as a list in insertion
order; the SQL sort is modelled as a (stable) insertion sort on the
descending-date relation. -/
def getUserTransactions (db : List Txn) (uid : ℕ) : List Txn :=
  (List.insertionSort dge (db.filter (fun t => t.user_id == uid))).take 100

/-- `compute_positions_simple(db, user_id)` (`portfolio_service.py` lines
107-144): fetch via `crud.get_user_transactions` and fold. -/
def computePositionsSimple (db : List Txn) (uid : ℕ) : List TickerAcc :=
  computePositionsSimpleList (getUserTransactions db uid)

/-- First accumulator entry for a ticker, defaulting to the zero state the
Python loop would initialise (`if ticker not in by_ticker`). -/
def accStateOf (m : List TickerAcc) (tk : String) : TickerAcc :=
  (m.find? (fun a => a.ticker == tk)).getD
    { ticker := tk, stock_name := "", quantity := 0, total_cost := 0, realized_profit := 0 }

/-- Lookup of a ticker's entry in an accumulator list. -/
def lookupAcc (m : List TickerAcc) (tk : String) : Option TickerAcc :=
  m.find? (fun a => a.ticker == tk)

/-! ## Valuation (`get_portfolio_summary`, `portfolio_service.py` lines 147-203)

The price fetcher (`get_current_price` with an injected `price_fetcher`, or
the scraper) is modelled as an arbitrary function `String → Option ℚ`:
`none` is a failed quote lookup. -/

/-- The `Position` dataclass (`portfolio_service.py` lines 23-37). -/
structure Position where
  user_id : ℕ
  ticker : String
  stock_name : String
  total_quantity : ℚ
  average_buy_price : ℚ
  total_cost : ℚ
  current_price : Option ℚ
  market_value : Option ℚ
  realized_profit : ℚ
  unrealized_profit : Option ℚ
  unrealized_profit_pct : Option ℚ
deriving DecidableEq, Repr

/-- The `PortfolioSummary` dataclass (`portfolio_service.py` lines 40-50). -/
structure PortfolioSummary where
  user_id : ℕ
  total_cost : ℚ
  total_market_value : ℚ
  total_realized_profit : ℚ
  total_unrealized_profit : ℚ
  total_return_pct : ℚ
  positions : List Position
deriving DecidableEq, Repr

/-- `market_value = current * qty if current else None`
(`portfolio_service.py` line 165).  Python truthiness: a fetched price of
`Decimal("0")` is falsy, so a zero quote also yields `None`. -/
def marketValueOf (current : Option ℚ) (qty : ℚ) : Option ℚ :=
  match current with
  | none => none
  | some c => if c = 0 then none else some (c * qty)

/-- One iteration of the valuation loop (`portfolio_service.py` lines
160-189), producing the `Position` record for one per-ticker accumulator
entry. -/
def valueOne (uid : ℕ) (lookup : String → Option ℚ) (p : TickerAcc) : Position :=
  let qty := p.quantity
  let cost := p.total_cost
  let current := lookup p.ticker
  let mv := marketValueOf current qty
  let unrealized := mv.map (fun m => m - cost)
  let unrealized_pct :=
    match unrealized with
    | none => none
    | some u => if cost = 0 then none else some (u / cost * 100)
  { user_id := uid
    ticker := p.ticker
    stock_name := p.stock_name
    total_quantity := qty
    average_buy_price := if qty = 0 then 0 else cost / qty
    total_cost := cost
    current_price := current
    market_value := mv
    realized_profit := p.realized_profit
    unrealized_profit := unrealized
    unrealized_profit_pct := unrealized_pct }

/-- `valueOne` with its two divisions checked
(`unrealized / cost`, guarded in the source by `cost and cost != 0`, and
`cost / qty`, guarded by `if qty`): `none` means a `ZeroDivisionError`. -/
def valueOneChecked (uid : ℕ) (lookup : String → Option ℚ) (p : TickerAcc) : Option Position :=
  let qty := p.quantity
  let cost := p.total_cost
  let current := lookup p.ticker
  let mv := marketValueOf current qty
  let unrealized := mv.map (fun m => m - cost)
  (match unrealized with
   | none => some none
   | some u => if cost = 0 then some none else (sdiv u cost).map (fun x => some (x * 100))).bind
    fun unrealized_pct =>
      (if qty = 0 then some 0 else sdiv cost qty).bind fun avg =>
        some { user_id := uid
               ticker := p.ticker
               stock_name := p.stock_name
               total_quantity := qty
               average_buy_price := avg
               total_cost := cost
               current_price := current
               market_value := mv
               realized_profit := p.realized_profit
               unrealized_profit := unrealized
               unrealized_profit_pct := unrealized_pct }

/-- The body of `get_portfolio_summary` after `compute_positions_simple`
(`portfolio_service.py` lines 154-203).  The Python loop accumulates
`total_cost`, `total_mv` (only when `mv is not None`), `total_realized`,
`total_unrealized` (only when `mv is not None`) while appending `Position`
records; this is the same as mapping `valueOne` and summing. -/
def getPortfolioSummaryFrom (uid : ℕ) (pdata : List TickerAcc)
    (lookup : String → Option ℚ) : PortfolioSummary :=
  let positions := pdata.map (valueOne uid lookup)
  let total_cost := (pdata.map (fun p => p.total_cost)).sum
  let total_mv := (positions.filterMap (fun p => p.market_value)).sum
  let total_realized := (pdata.map (fun p => p.realized_profit)).sum
  let total_unrealized := (positions.filterMap (fun p => p.unrealized_profit)).sum
  let total_return_pct :=
    if 0 < total_cost ∧ 0 < total_mv then
      (total_mv + total_realized - total_cost) / total_cost * 100
    else 0
  { user_id := uid
    total_cost := total_cost
    total_market_value := total_mv
    total_realized_profit := total_realized
    total_unrealized_profit := total_unrealized
    total_return_pct := total_return_pct
    positions := positions }

/-- `get_portfolio_summary(db, user_id, price_fetcher)`
(`portfolio_service.py` lines 147-203). -/
def getPortfolioSummary (db : List Txn) (uid : ℕ)
    (lookup : String → Option ℚ) : PortfolioSummary :=
  getPortfolioSummaryFrom uid (computePositionsSimple db uid) lookup

/-- `getPortfolioSummaryFrom` with every division checked (the per-position
divisions of `valueOneChecked` plus the final
`(total_mv + total_realized - total_cost) / total_cost`, guarded in the
source by `total_cost > 0`): `none` means a `ZeroDivisionError`. -/
def getPortfolioSummaryFromChecked (uid : ℕ) (pdata : List TickerAcc)
    (lookup : String → Option ℚ) : Option PortfolioSummary :=
  (pdata.mapM (valueOneChecked uid lookup)).bind fun positions =>
    let total_cost := (pdata.map (fun p => p.total_cost)).sum
    let total_mv := (positions.filterMap (fun p => p.market_value)).sum
    let total_realized := (pdata.map (fun p => p.realized_profit)).sum
    let total_unrealized := (positions.filterMap (fun p => p.unrealized_profit)).sum
    (if 0 < total_cost ∧ 0 < total_mv then
      (sdiv (total_mv + total_realized - total_cost) total_cost).map (fun x => x * 100)
     else some 0).bind fun total_return_pct =>
      some { user_id := uid
             total_cost := total_cost
             total_market_value := total_mv
             total_realized_profit := total_realized
             total_unrealized_profit := total_unrealized
             total_return_pct := total_return_pct
             positions := positions }

/-! ## Analytics (`core/analyzer.py`) -/

/-- `compute_daily_return` (`analyzer.py` lines 39-46): percent change of the
last two points; `None` if fewer than 2 points or the previous price is 0. -/
def computeDailyReturn (prices : List ℚ) : Option ℚ :=
  match prices.reverse with
  | curr :: prev :: _ => if prev = 0 then none else some ((curr - prev) / prev * 100)
  | _ => none

/-- `compute_monthly_return` (`analyzer.py` lines 49-63): percent change of
the mean of the second half vs the mean of the first half, split at
`mid = max(1, n // 2)`. -/
def computeMonthlyReturn (prices : List ℚ) : Option ℚ :=
  if prices.length < 2 then none
  else
    let n := prices.length
    let mid := max 1 (n / 2)
    let oldAvg := (prices.take mid).sum / (mid : ℚ)
    let newAvg := (prices.drop mid).sum / ((n - mid : ℕ) : ℚ)
    if oldAvg = 0 then none else some ((newAvg - oldAvg) / oldAvg * 100)

/-- `compute_returns_from_prices` (`analyzer.py` lines 86-93): pairwise
percent returns, skipping pairs whose previous price is 0. -/
def computeReturnsFromPrices (prices : List ℚ) : List ℚ :=
  (prices.zip (prices.drop 1)).filterMap
    (fun pc => if pc.1 = 0 then none else some ((pc.2 - pc.1) / pc.1 * 100))

/-- The variance computed inside `compute_volatility` (`analyzer.py` lines
70-72): mean over `n`, squared deviations summed and divided by
`max(1, n - 1)`. -/
def sampleVar (returns : List ℚ) : ℚ :=
  let n := returns.length
  let mean := returns.sum / (n : ℚ)
  ((returns.map (fun r => (r - mean) ^ 2)).sum) / ((max 1 (n - 1) : ℕ) : ℚ)

/-- `compute_volatility` (`analyzer.py` lines 66-75):
`sqrt(var) * 252 ** 0.5 * 100 if var >= 0 else None`, `None` on an empty
return list.  The square root forces the result into `ℝ`. -/
noncomputable def computeVolatility (returns : List ℚ) : Option ℝ :=
  if returns = [] then none
  else if 0 ≤ sampleVar returns then
    some (Real.sqrt (sampleVar returns) * Real.sqrt 252 * 100)
  else none

/-- `computeVolatility` with the two divisions (`sum / n` and
`... / max(1, n - 1)`) checked: outer `none` means a `ZeroDivisionError`,
the inner option is the function's result. -/
noncomputable def computeVolatilityChecked (returns : List ℚ) : Option (Option ℝ) :=
  if returns = [] then some none
  else
    let n := returns.length
    (sdiv returns.sum (n : ℚ)).bind fun mean =>
      (sdiv ((returns.map (fun r => (r - mean) ^ 2)).sum) ((max 1 (n - 1) : ℕ) : ℚ)).bind
        fun var =>
          some (if 0 ≤ var then some (Real.sqrt var * Real.sqrt 252 * 100) else none)

/-- `compute_moving_average` (`analyzer.py` lines 78-83): mean of
`prices[-window:]`, `None` if the series is shorter than the window.
(Python's `prices[-0:]` is the whole list, hence the `window = 0` case.) -/
def computeMovingAverage (prices : List ℚ) (window : ℕ) : Option ℚ :=
  if prices.length < window then none
  else
    let wp := if window = 0 then prices else prices.drop (prices.length - window)
    some (wp.sum / (wp.length : ℚ))

/-- The effective price sequence of `analyze_stock`
(`analyzer.py` lines 107-109):

    prices = [p for _, p in (historical_prices or [])]
    if (current_price or Decimal(0)) > 0:
        prices = prices + [current_price]

The current price is appended whenever it is positive; the historical
timestamps are discarded and never compared against it. -/
def effectivePrices (historical : List (ℕ × ℚ)) (current_price : ℚ) : List ℚ :=
  let prices := historical.map Prod.snd
  if 0 < current_price then prices ++ [current_price] else prices

/-- Modelled from the spec: "Build the effective price sequence = historical
series with `currentPrice` appended if newer than the series' last point and
positive", where the current snapshot (which carries no timestamp in the
code) counts as not newer when it "is not newer than, or already equal to,
the last historical point" — i.e. it is appended only when positive and
different from the last historical price. -/
def specEffectivePrices (historical : List (ℕ × ℚ)) (current_price : ℚ) : List ℚ :=
  let prices := historical.map Prod.snd
  if 0 < current_price ∧ prices.getLast? ≠ some current_price then
    prices ++ [current_price]
  else prices

/-- Trend classification inside `analyze_stock` (`analyzer.py` lines
126-133): computed only when `ma20 and ma50 and current_price` are all
truthy (present and nonzero). -/
def growthTrend (current_price : ℚ) (ma20 ma50 : Option ℚ) : Option String :=
  match ma20, ma50 with
  | some m20, some m50 =>
      if m20 = 0 ∨ m50 = 0 ∨ current_price = 0 then none
      else if m50 < m20 ∧ m20 < current_price then some "bullish"
      else if current_price < m20 ∧ m20 < m50 then some "bearish"
      else some "neutral"
  | _, _ => none

/-- The `AnalysisResult` dataclass (`analyzer.py` lines 21-36), without the
presentation-only `summary` string and `computed_at` wall-clock field. -/
structure AnalysisResult where
  ticker : String
  current_price : ℚ
  currency : String
  daily_return_pct : Option ℚ
  monthly_return_pct : Option ℚ
  volatility_annualized : Option ℝ
  ma_20 : Option ℚ
  ma_50 : Option ℚ
  pe_ratio : Option ℝ
  growth_trend : Option String

/-- `analyze_stock` (`analyzer.py` lines 96-159): all metrics are computed
from the effective price sequence (guarded by `if prices:`). -/
noncomputable def analyzeStock (ticker : String) (current_price : ℚ)
    (historical : List (ℕ × ℚ)) (pe_ratio : Option ℝ) : AnalysisResult :=
  let prices := effectivePrices historical current_price
  let daily := if prices = [] then none else computeDailyReturn prices
  let monthly := if prices = [] then none else computeMonthlyReturn prices
  let vol := if prices = [] then none
             else computeVolatility (computeReturnsFromPrices prices)
  let ma20 := if prices = [] then none else computeMovingAverage prices 20
  let ma50 := if prices = [] then none else computeMovingAverage prices 50
  { ticker := ticker
    current_price := current_price
    currency := "XOF"
    daily_return_pct := daily
    monthly_return_pct := monthly
    volatility_annualized := vol
    ma_20 := ma20
    ma_50 := ma50
    pe_ratio := pe_ratio
    growth_trend := growthTrend current_price ma20 ma50 }

/-- `detect_signal` (`analyzer.py` lines 192-211).  The guard
`if not ma20 or not ma50 or not current_price` uses Python truthiness: a
missing average, a zero average, or a zero current price yield `None`; a
negative current price passes the guard. -/
def detectSignal (current_price : ℚ) (ma20 ma50 : Option ℚ) : Option String :=
  match ma20, ma50 with
  | some m20, some m50 =>
      if m20 = 0 ∨ m50 = 0 ∨ current_price = 0 then none
      else if m50 < m20 ∧ m20 < current_price then some "BUY"
      else if m20 < m50 ∧ current_price < m20 then some "SELL"
      else none
  | _, _ => none

/-! ## Spec-side reference definitions (for refinement comparisons) -/

/-- Modelled from the spec: the aggregation contract mandates that the
transaction fold "must be processed in non-decreasing `occurred_at` order",
i.e. the feed is re-sorted ascending by `transaction_date` before folding. -/
def specAscAggregate (db : List Txn) (uid : ℕ) : List TickerAcc :=
  computePositionsSimpleList
    (List.insertionSort (fun a b => a.transaction_date ≤ b.transaction_date)
      (db.filter (fun t => t.user_id == uid)))

/-- Modelled from the spec: `volatility_annualized_pct` = sample standard
deviation of the returns (variance over `max(1, n-1)`) multiplied by
`sqrt(252)`; null if the return list is empty. -/
noncomputable def specVolatility (returns : List ℚ) : Option ℝ :=
  if returns = [] then none
  else some (Real.sqrt (sampleVar returns) * Real.sqrt 252)

/-! ## Concrete inputs used in the theorems below -/

/-- A single account's ledger: BUY 10 @ 10 (t=1), BUY 10 @ 20 (t=2),
SELL 10 @ 30 (t=3), listed in chronological order. -/
def c1db : List Txn :=
  [⟨1, "SNTS", "SNTS", Side.buy, 10, 10, 0, 1⟩,
   ⟨1, "SNTS", "SNTS", Side.buy, 10, 20, 0, 2⟩,
   ⟨1, "SNTS", "SNTS", Side.sell, 10, 30, 0, 3⟩]

/-- A ticker bought and then fully sold: BUY 1 @ 100 (t=1),
SELL 1 @ 200 (t=2), in chronological order. -/
def c2tx : List Txn :=
  [⟨1, "A", "A", Side.buy, 1, 100, 0, 1⟩,
   ⟨1, "A", "A", Side.sell, 1, 200, 0, 2⟩]

/-- The spec's worked BUY example: BUY 100 @ 5000 then BUY 50 @ 5200. -/
def c6tx : List Txn :=
  [⟨1, "SNTS", "SNTS", Side.buy, 100, 5000, 0, 1⟩,
   ⟨1, "SNTS", "SNTS", Side.buy, 50, 5200, 0, 2⟩]

/-! ## Basic lemmas about the aggregation fold -/

lemma applySell_ticker (acc : TickerAcc) (q p f : ℚ) :
    (applySell acc q p f).ticker = acc.ticker := by
  unfold applySell
  split <;> rfl

lemma applyTxn_ticker (a : TickerAcc) (t : Txn) :
    (applyTxn a t).ticker = a.ticker := by
  unfold applyTxn
  cases t.side
  · rfl
  · exact applySell_ticker a t.quantity t.price t.fees

lemma bump_ticker (t : Txn) (a : TickerAcc) :
    (if a.ticker == t.ticker then applyTxn a t else a).ticker = a.ticker := by
  split
  · exact applyTxn_ticker a t
  · rfl

lemma applyTxn_buy (a : TickerAcc) (t : Txn) (hb : t.side = Side.buy) :
    applyTxn a t
      = { a with quantity := a.quantity + t.quantity,
                 total_cost := a.total_cost + (t.quantity * t.price + t.fees) } := by
  unfold applyTxn
  rw [hb]

/-- One `updateMap` step with a BUY transaction: the transaction's ticker has
its realized profit unchanged and its cost basis bumped by
`qty * price + fees`; every other ticker's state is unchanged. -/
lemma accStateOf_updateMap_buy (m : List TickerAcc) (t : Txn) (tk : String)
    (hb : t.side = Side.buy) :
    (accStateOf (updateMap m t) tk).realized_profit
      = (accStateOf m tk).realized_profit ∧
    (accStateOf (updateMap m t) tk).total_cost
      = (accStateOf m tk).total_cost
        + (if t.ticker = tk then t.quantity * t.price + t.fees else 0) := by
  unfold updateMap accStateOf
  split
  case isTrue hany =>
    rw [List.find?_map]
    have hcomp :
        ((fun a : TickerAcc => a.ticker == tk) ∘
          fun a => if a.ticker == t.ticker then applyTxn a t else a)
          = fun a : TickerAcc => a.ticker == tk := by
      funext a
      simp only [Function.comp_apply]
      rw [bump_ticker]
    rw [hcomp]
    rcases hfind : List.find? (fun a : TickerAcc => a.ticker == tk) m with _ | e
    · have hne : t.ticker ≠ tk := by
        rcases List.any_eq_true.mp hany with ⟨x, hx, hxt⟩
        intro hteq
        have hno := List.find?_eq_none.mp hfind x hx
        apply hno
        have hxteq : x.ticker = t.ticker := by simpa using hxt
        simp [hxteq, hteq]
      simp [hne]
    · have he : e.ticker = tk := by
        have := List.find?_some hfind
        simpa using this
      simp only [Option.map_some', Option.getD_some]
      by_cases htk : t.ticker = tk
      · rw [if_pos htk]
        have : (e.ticker == t.ticker) = true := by simp [he, htk]
        rw [this]
        rw [applyTxn_buy e t hb]
        simp
      · rw [if_neg htk]
        have : (e.ticker == t.ticker) = false := by
          simp [he]
          intro hcon
          exact htk hcon.symm
        rw [this]
        simp
  case isFalse hany =>
    rw [List.find?_append]
    have hnew : (applyTxn (initAcc t) t).ticker = t.ticker := applyTxn_ticker _ t
    by_cases htk : t.ticker = tk
    · have hall : ∀ x ∈ m, ¬x.ticker = t.ticker := by simpa using hany
      have hnone : List.find? (fun a : TickerAcc => a.ticker == tk) m = none := by
        rw [List.find?_eq_none]
        intro x hx
        simpa [htk] using hall x hx
      rw [hnone]
      have : (((applyTxn (initAcc t) t).ticker == tk)) = true := by simp [hnew, htk]
      simp only [Option.none_or, List.find?_cons, this, if_pos htk]
      rw [applyTxn_buy (initAcc t) t hb]
      simp [initAcc]
    · have : (((applyTxn (initAcc t) t).ticker == tk)) = false := by
        simp [hnew]
        exact htk
      simp only [List.find?_cons, this, cond_false, List.find?_nil, Option.or_none,
        if_neg htk]
      simp

/-- Folding a BUY-only batch from any starting accumulator: realized profit
is unchanged and each ticker's cost basis grows by the sum of
`qty * price + fees` over its records. -/
lemma accStateOf_foldl_buy (l : List Txn) (m : List TickerAcc) (tk : String)
    (hb : ∀ t ∈ l, t.side = Side.buy) :
    (accStateOf (l.foldl updateMap m) tk).realized_profit
      = (accStateOf m tk).realized_profit ∧
    (accStateOf (l.foldl updateMap m) tk).total_cost
      = (accStateOf m tk).total_cost
        + ((l.filter (fun t => t.ticker == tk)).map
            (fun t => t.quantity * t.price + t.fees)).sum := by
  induction l generalizing m with
  | nil => simp
  | cons t l ih =>
    have h1 := accStateOf_updateMap_buy m t tk (hb t (by simp))
    have h2 := ih (updateMap m t) (fun u hu => hb u (by simp [hu]))
    rw [List.foldl_cons]
    refine ⟨h2.1.trans h1.1, h2.2.trans ?_⟩
    rw [h1.2]
    by_cases htk : t.ticker = tk
    · rw [List.filter_cons_of_pos (by simpa using htk), if_pos htk]
      simp only [List.map_cons, List.sum_cons]
      ring
    · rw [List.filter_cons_of_neg (by simpa using htk), if_neg htk]
      ring

/-- The accumulator keys stay pairwise distinct through one step. -/
lemma updateMap_pairwise (m : List TickerAcc) (t : Txn)
    (hm : m.Pairwise (fun a b => a.ticker ≠ b.ticker)) :
    (updateMap m t).Pairwise (fun a b => a.ticker ≠ b.ticker) := by
  unfold updateMap
  split
  case isTrue hany =>
    rw [List.pairwise_map]
    refine hm.imp ?_
    intro a b hab
    rwa [bump_ticker, bump_ticker]
  case isFalse hany =>
    rw [List.pairwise_append]
    refine ⟨hm, by simp, ?_⟩
    intro a ha b hbmem
    have hb : b = applyTxn (initAcc t) t := by simpa using hbmem
    subst hb
    rw [applyTxn_ticker]
    have hall : ∀ x ∈ m, ¬x.ticker = t.ticker := by simpa using hany
    simpa [initAcc] using hall a ha

/-- The `by_ticker` dict never holds two entries for one ticker. -/
lemma computeByTicker_pairwise (trans : List Txn) :
    (computeByTicker trans).Pairwise (fun a b => a.ticker ≠ b.ticker) := by
  unfold computeByTicker
  generalize hm : ([] : List TickerAcc) = m
  have hm0 : m.Pairwise (fun a b => a.ticker ≠ b.ticker) := by simp [← hm]
  clear hm
  induction trans generalizing m with
  | nil => simpa using hm0
  | cons t l ih => exact ih (updateMap m t) (updateMap_pairwise m t hm0)

/-- In a key-distinct accumulator list, `find?` on a member's ticker returns
exactly that member. -/
lemma find?_of_mem_pairwise (m : List TickerAcc)
    (hm : m.Pairwise (fun a b => a.ticker ≠ b.ticker))
    (p : TickerAcc) (hp : p ∈ m) :
    m.find? (fun a => a.ticker == p.ticker) = some p := by
  induction m with
  | nil => cases hp
  | cons a m ih =>
    rcases List.mem_cons.mp hp with h | h
    · subst h
      simp
    · have hpair := List.pairwise_cons.mp hm
      have hne : a.ticker ≠ p.ticker := hpair.1 p h
      rw [List.find?_cons_of_neg _ (by simpa using hne)]
      exact ih hpair.2 h

/-! ## Claims -/

/-- C1: the claim states that `compute_positions_simple` composed with the
transaction feed processes records in non-decreasing `occurred_at` order.
In fact `crud.get_user_transactions` orders by `transaction_date`
**descending**, and the fold consumes that order: on the ledger `c1db`
(BUY 10@10, BUY 10@20, SELL 10@30, timestamps 1 < 2 < 3) the code folds the
SELL first, against an empty balance, yielding quantity 10, cost basis 300
and realized profit 0, while the mandated non-decreasing fold yields
quantity 10, cost basis 150 and realized profit 150. -/
theorem c1_fold_uses_descending_feed_order :
    getUserTransactions c1db 1
      = [⟨1, "SNTS", "SNTS", Side.sell, 10, 30, 0, 3⟩,
         ⟨1, "SNTS", "SNTS", Side.buy, 10, 20, 0, 2⟩,
         ⟨1, "SNTS", "SNTS", Side.buy, 10, 10, 0, 1⟩] ∧
    computePositionsSimple c1db 1
      = [⟨"SNTS", "SNTS", 10, 300, 0⟩] ∧
    specAscAggregate c1db 1
      = [⟨"SNTS", "SNTS", 10, 150, 150⟩] ∧
    computePositionsSimple c1db 1 ≠ specAscAggregate c1db 1 := by
  have h1 : getUserTransactions c1db 1
      = [⟨1, "SNTS", "SNTS", Side.sell, 10, 30, 0, 3⟩,
         ⟨1, "SNTS", "SNTS", Side.buy, 10, 20, 0, 2⟩,
         ⟨1, "SNTS", "SNTS", Side.buy, 10, 10, 0, 1⟩] := by
    norm_num [getUserTransactions, c1db, List.insertionSort, List.orderedInsert, dge]
  have h2 : computePositionsSimple c1db 1 = [⟨"SNTS", "SNTS", 10, 300, 0⟩] := by
    norm_num [computePositionsSimple, getUserTransactions, c1db,
      computePositionsSimpleList, computeByTicker, updateMap, applyTxn, applySell,
      initAcc, List.insertionSort, List.orderedInsert, dge]
  have h3 : specAscAggregate c1db 1 = [⟨"SNTS", "SNTS", 10, 150, 150⟩] := by
    norm_num [specAscAggregate, c1db, computePositionsSimpleList, computeByTicker,
      updateMap, applyTxn, applySell, initAcc, List.insertionSort, List.orderedInsert]
  refine ⟨h1, h2, h3, ?_⟩
  rw [h2, h3]
  intro hcon
  norm_num at hcon

/-- C2 (counterexample): on BUY 1 @ 100 then SELL 1 @ 200 the fold closes
the ticker with realized profit 100, but `compute_positions_simple` returns
only the quantity-positive entries — the realized profit is not folded into
any carry value and is lost to the caller. -/
theorem c2_realized_profit_lost :
    lookupAcc (computeByTicker c2tx) "A" = some ⟨"A", "A", 0, 0, 100⟩ ∧
    computePositionsSimpleList c2tx = [] ∧
    ((computePositionsSimpleList c2tx).map (fun p => p.realized_profit)).sum
      = 0 := by
  have hmap : computeByTicker c2tx = [⟨"A", "A", 0, 0, 100⟩] := by
    norm_num [computeByTicker, c2tx, updateMap, applyTxn, applySell, initAcc]
  have hpos : computePositionsSimpleList c2tx = [] := by
    rw [computePositionsSimpleList, hmap]
    norm_num
  refine ⟨?_, hpos, ?_⟩
  · rw [lookupAcc, hmap]
    norm_num [List.find?]
  · rw [hpos]
    rfl

/-- C2 (amended): selling the full held quantity exactly drives the ticker's
quantity to 0 and removes it from the returned open positions, but its
realized profit is not returned through any carry value —
`compute_positions_simple` returns nothing but the filtered position list,
so the dropped ticker's realized profit is absent from the result. -/
theorem c2_closed_ticker_removed_no_carry :
    (∀ (acc : TickerAcc) (price fees : ℚ),
        (applySell acc acc.quantity price fees).quantity = 0) ∧
    (∀ (trans : List Txn) (tk : String),
        (accStateOf (computeByTicker trans) tk).quantity ≤ 0 →
        lookupAcc (computePositionsSimpleList trans) tk = none) := by
  constructor
  · intro acc price fees
    unfold applySell
    split <;> simp
  · intro trans tk hq
    unfold lookupAcc computePositionsSimpleList
    rw [List.find?_eq_none]
    intro p hp
    rcases List.mem_filter.mp hp with ⟨hpmem, hppos⟩
    have hppos' : 0 < p.quantity := by simpa using hppos
    intro hptk
    have hptk' : p.ticker = tk := by simpa using hptk
    have hfind := find?_of_mem_pairwise (computeByTicker trans)
      (computeByTicker_pairwise trans) p hpmem
    rw [hptk'] at hfind
    have : accStateOf (computeByTicker trans) tk = p := by
      unfold accStateOf
      rw [hfind]
      rfl
    rw [this] at hq
    exact absurd hq (not_le.mpr hppos')

/-- C2 (witness): instances of both conjuncts of
`c2_closed_ticker_removed_no_carry` at concrete inputs. -/
theorem c2_closed_ticker_removed_no_carry_witness :
    (applySell ⟨"A", "A", 5, 100, 0⟩ 5 200 0).quantity = 0 ∧
    lookupAcc (computePositionsSimpleList c2tx) "A" = none :=
  ⟨c2_closed_ticker_removed_no_carry.1 ⟨"A", "A", 5, 100, 0⟩ 200 0,
   c2_closed_ticker_removed_no_carry.2 c2tx "A"
     (by norm_num [accStateOf, computeByTicker, c2tx, updateMap, applyTxn,
        applySell, initAcc, List.find?])⟩

/-- C3 (counterexample): the claim states that on SELL the held quantity
decreases by the clamped `sell_qty = min(qty, quantity_held)` and that a
sale against a zero balance contributes pure proceeds.  In the code the
quantity decreases by the **full** requested `qty` (here 1 - 2 = -1, not
1 - min 2 1 = 0), and a sale against a zero balance is skipped entirely
(realized profit stays 0 instead of gaining the proceeds 1 * 10). -/
theorem c3_sell_decrements_full_qty :
    (applySell ⟨"SNTS", "SNTS", 1, 10, 0⟩ 2 10 0).quantity = -1 ∧
    (1 : ℚ) - min 2 1 ≠ -1 ∧
    (applySell ⟨"SNTS", "SNTS", 0, 0, 0⟩ 1 10 0).realized_profit = 0 ∧
    (0 : ℚ) ≠ 1 * 10 := by
  refine ⟨by norm_num [applySell], by norm_num [min_def], by norm_num [applySell],
    by norm_num⟩

/-- C3 (amended): the SELL step never raises (every division is guarded);
when the held quantity is positive, the cost removed is
`sell_qty * avg` with `sell_qty = min(qty, quantity_held)` and
`avg = total_cost / quantity_held`, fees are allocated pro rata as
`fees * sell_qty / qty`, realized profit grows by `proceeds - cost_removed`
— but the held quantity decreases by the full requested `qty`; when the
held quantity is not positive, the sale only decrements the quantity. -/
theorem c3_sell_step_semantics (acc : TickerAcc) (qty price fees : ℚ) :
    applySellChecked acc qty price fees = some (applySell acc qty price fees) ∧
    (0 < acc.quantity →
      (applySell acc qty price fees).quantity = acc.quantity - qty ∧
      (applySell acc qty price fees).total_cost
        = acc.total_cost - min qty acc.quantity * (acc.total_cost / acc.quantity) ∧
      (applySell acc qty price fees).realized_profit
        = acc.realized_profit
          + ((min qty acc.quantity * price
              - (if qty = 0 then 0 else fees * min qty acc.quantity / qty))
             - min qty acc.quantity * (acc.total_cost / acc.quantity))) ∧
    (acc.quantity ≤ 0 →
      applySell acc qty price fees
        = { acc with quantity := acc.quantity - qty }) := by
  refine ⟨?_, ?_, ?_⟩
  · unfold applySellChecked applySell sdiv
    by_cases hq : 0 < acc.quantity
    · by_cases h0 : qty = 0 <;> simp [hq, h0, ne_of_gt hq]
    · simp [hq]
  · intro hq
    unfold applySell
    rw [if_pos hq]
    exact ⟨rfl, rfl, rfl⟩
  · intro hq
    unfold applySell
    rw [if_neg (not_lt.mpr hq)]

/-- C3 (witness): instance of `c3_sell_step_semantics` at a concrete state
(2 held at total cost 10) and SELL 1 @ 7 with fees 1. -/
theorem c3_sell_step_semantics_witness :
    applySellChecked ⟨"A", "A", 2, 10, 0⟩ 1 7 1
      = some (applySell ⟨"A", "A", 2, 10, 0⟩ 1 7 1) ∧
    (applySell ⟨"A", "A", 2, 10, 0⟩ 1 7 1).quantity = 2 - 1 ∧
    (applySell ⟨"A", "A", 2, 10, 0⟩ 1 7 1).total_cost
      = 10 - min 1 2 * (10 / 2) ∧
    (applySell ⟨"A", "A", 2, 10, 0⟩ 1 7 1).realized_profit
      = 0 + ((min 1 2 * 7 - (if (1 : ℚ) = 0 then 0 else 1 * min 1 2 / 1))
             - min 1 2 * (10 / 2)) :=
  ⟨(c3_sell_step_semantics ⟨"A", "A", 2, 10, 0⟩ 1 7 1).1,
   (c3_sell_step_semantics ⟨"A", "A", 2, 10, 0⟩ 1 7 1).2.1 (by norm_num)⟩

/-- C6: on a BUY-only transaction batch, every ticker ends with realized
profit 0 and cost basis equal to the sum of `qty * price + fees` over its
own records. -/
theorem c6_buy_only_fold (trans : List Txn)
    (hb : ∀ t ∈ trans, t.side = Side.buy) (tk : String) :
    (accStateOf (computeByTicker trans) tk).realized_profit = 0 ∧
    (accStateOf (computeByTicker trans) tk).total_cost
      = ((trans.filter (fun t => t.ticker == tk)).map
          (fun t => t.quantity * t.price + t.fees)).sum := by
  have h := accStateOf_foldl_buy trans [] tk hb
  unfold computeByTicker
  constructor
  · rw [h.1]
    rfl
  · rw [h.2]
    simp [accStateOf]

/-- C6 (witness): the spec's worked example BUY 100 @ 5000 then BUY 50 @
5200 yields realized profit 0 and cost basis 760000. -/
theorem c6_buy_only_fold_witness :
    (accStateOf (computeByTicker c6tx) "SNTS").realized_profit = 0 ∧
    (accStateOf (computeByTicker c6tx) "SNTS").total_cost = 760000 :=
  ⟨(c6_buy_only_fold c6tx (by decide) "SNTS").1,
   ((c6_buy_only_fold c6tx (by decide) "SNTS").2).trans (by norm_num [c6tx])⟩

lemma sampleVar_nonneg (returns : List ℚ) : 0 ≤ sampleVar returns := by
  unfold sampleVar
  refine div_nonneg ?_ (by positivity)
  refine List.sum_nonneg ?_
  intro x hx
  rcases List.mem_map.mp hx with ⟨r, _, rfl⟩
  positivity

/-- C4 (counterexample): the claim states that `compute_volatility` returns
the sample standard deviation multiplied by `sqrt(252)`; the code multiplies
by an additional factor of 100 (`math.sqrt(var) * 252 ** 0.5 * 100`).  On
the return list `[0, 2]` (sample variance 2) the two values differ. -/
theorem c4_volatility_extra_hundred :
    computeVolatility [0, 2] ≠ specVolatility [0, 2] := by
  have hvar : sampleVar [0, 2] = 2 := by norm_num [sampleVar]
  have hne : ¬([0, 2] : List ℚ) = [] := by simp
  have hs : (0 : ℝ) < Real.sqrt ((2 : ℚ) : ℝ) * Real.sqrt 252 := by
    have h1 : (0 : ℝ) < ((2 : ℚ) : ℝ) := by norm_num
    exact mul_pos (Real.sqrt_pos.mpr h1) (Real.sqrt_pos.mpr (by norm_num))
  simp only [computeVolatility, specVolatility, if_neg hne, hvar]
  rw [if_pos (by norm_num : (0 : ℚ) ≤ 2)]
  intro h
  have h2 := Option.some_inj.mp h
  linarith

/-- C4 (amended): `compute_volatility` returns null exactly when the return
list is empty; otherwise it returns the sample standard deviation (variance
over `max(1, n-1)`) multiplied by `sqrt(252)` **and by 100**, the result is
never negative, and no division by zero is ever performed. -/
theorem c4_volatility_characterization (returns : List ℚ) :
    (computeVolatility returns = none ↔ returns = []) ∧
    computeVolatilityChecked returns = some (computeVolatility returns) ∧
    (returns ≠ [] →
      computeVolatility returns
        = some (Real.sqrt (sampleVar returns) * Real.sqrt 252 * 100) ∧
      ∀ x : ℝ, computeVolatility returns = some x → 0 ≤ x) := by
  have hvar := sampleVar_nonneg returns
  by_cases hne : returns = []
  · subst hne
    exact ⟨by simp [computeVolatility], rfl, fun h => absurd rfl h⟩
  · have hn : ((returns.length : ℕ) : ℚ) ≠ 0 :=
      Nat.cast_ne_zero.mpr (Nat.pos_iff_ne_zero.mp (List.length_pos.mpr hne))
    have hmx : (((max 1 (returns.length - 1)) : ℕ) : ℚ) ≠ 0 :=
      Nat.cast_ne_zero.mpr
        (Nat.pos_iff_ne_zero.mp (lt_of_lt_of_le Nat.one_pos (le_max_left _ _)))
    have hfold :
        ((returns.map fun r => (r - returns.sum / (returns.length : ℚ)) ^ 2).sum
          / (((max 1 (returns.length - 1)) : ℕ) : ℚ)) = sampleVar returns := by
      simp only [sampleVar]
    have heq : computeVolatility returns
        = some (Real.sqrt (sampleVar returns) * Real.sqrt 252 * 100) := by
      rw [computeVolatility, if_neg hne, if_pos hvar]
    refine ⟨?_, ?_, fun _ => ⟨heq, ?_⟩⟩
    · rw [heq]
      simp [hne]
    · simp only [computeVolatilityChecked, if_neg hne, sdiv, if_neg hn, if_neg hmx,
        Option.some_bind]
      rw [hfold, if_pos hvar, heq]
    · intro x hx
      rw [heq] at hx
      rw [← Option.some_inj.mp hx]
      positivity

/-- C4 (witness): `c4_volatility_characterization` instantiated on the
all-zero return series `[0, 0]`, on which the code does not raise. -/
theorem c4_volatility_characterization_witness :
    computeVolatility [0, 0]
      = some (Real.sqrt (sampleVar [0, 0]) * Real.sqrt 252 * 100) :=
  ((c4_volatility_characterization [0, 0]).2.2 (by simp)).1

/-- C5 (counterexample): the claim states the current price is appended only
when newer than (in particular, not already equal to) the series' last
point.  The code appends whenever the current price is positive: with
history `[(t=0, 100)]` and current price 100 (equal to the last point) the
effective sequence is `[100, 100]`, not `[100]`, and `analyze_stock`
consequently reports a 0% daily return instead of null. -/
theorem c5_append_ignores_timestamps :
    effectivePrices [(0, 100)] 100 = [100, 100] ∧
    specEffectivePrices [(0, 100)] 100 = [100] ∧
    effectivePrices [(0, 100)] 100 ≠ specEffectivePrices [(0, 100)] 100 ∧
    (analyzeStock "SNTS" 100 [(0, 100)] none).daily_return_pct = some 0 := by
  have h1 : effectivePrices [(0, 100)] 100 = [100, 100] := by
    norm_num [effectivePrices]
  have h2 : specEffectivePrices [(0, 100)] 100 = [100] := by
    norm_num [specEffectivePrices]
  refine ⟨h1, h2, ?_, ?_⟩
  · rw [h1, h2]
    simp
  · have hfield : (analyzeStock "SNTS" 100 [(0, 100)] none).daily_return_pct
        = (if effectivePrices [(0, 100)] 100 = [] then none
           else computeDailyReturn (effectivePrices [(0, 100)] 100)) := rfl
    rw [hfield, h1, if_neg (by simp : ¬([100, 100] : List ℚ) = [])]
    norm_num [computeDailyReturn]

/-- C5 (amended): `analyze_stock` computes its metrics over the effective
price sequence, which is the historical series with the current price
appended **iff the current price is positive** — the historical timestamps
and the last point's value are never consulted. -/
theorem c5_effective_prices_characterization (historical : List (ℕ × ℚ))
    (cp : ℚ) (tk : String) (pe : Option ℝ) :
    (effectivePrices historical cp = historical.map Prod.snd ++ [cp] ↔ 0 < cp) ∧
    (cp ≤ 0 → effectivePrices historical cp = historical.map Prod.snd) ∧
    (analyzeStock tk cp historical pe).daily_return_pct
      = (if effectivePrices historical cp = [] then none
         else computeDailyReturn (effectivePrices historical cp)) ∧
    (analyzeStock tk cp historical pe).ma_20
      = (if effectivePrices historical cp = [] then none
         else computeMovingAverage (effectivePrices historical cp) 20) := by
  refine ⟨⟨?_, ?_⟩, ?_, rfl, rfl⟩
  · intro h
    by_contra hc
    simp only [effectivePrices] at h
    rw [if_neg hc] at h
    have hlen := congrArg List.length h
    simp at hlen
  · intro h
    simp only [effectivePrices]
    rw [if_pos h]
  · intro h
    simp only [effectivePrices]
    rw [if_neg (not_lt.mpr h)]

/-- C5 (witness): with a non-positive current price the effective sequence
is exactly the historical prices. -/
theorem c5_effective_prices_characterization_witness :
    effectivePrices [(0, 100)] (-1)
      = ([((0 : ℕ), (100 : ℚ))]).map Prod.snd :=
  (c5_effective_prices_characterization [(0, 100)] (-1) "SNTS" none).2.1
    (by norm_num)

/-- C8 (counterexample): the claim states the signal is null whenever the
current price is not positive.  The code only checks truthiness
(`not current_price`, i.e. zero), so a negative current price below a
falling short average yields "SELL". -/
theorem c8_signal_nonpositive_price :
    detectSignal (-1) (some 5) (some 10) = some "SELL" ∧
    ¬(0 : ℚ) < -1 := by
  constructor
  · norm_num [detectSignal]
  · norm_num

/-- C8 (amended): the signal is "BUY" exactly when both averages are present
and nonzero, the current price is nonzero (not necessarily positive),
`ma_short > ma_long` and `current > ma_short`; "SELL" exactly in the mirror
case; and null otherwise (a zero average counts as missing via Python
truthiness). -/
theorem c8_signal_characterization (cp : ℚ) (ma20 ma50 : Option ℚ) :
    (detectSignal cp ma20 ma50 = some "BUY" ↔
      ∃ m20 m50, ma20 = some m20 ∧ ma50 = some m50 ∧
        m20 ≠ 0 ∧ m50 ≠ 0 ∧ cp ≠ 0 ∧ m50 < m20 ∧ m20 < cp) ∧
    (detectSignal cp ma20 ma50 = some "SELL" ↔
      ∃ m20 m50, ma20 = some m20 ∧ ma50 = some m50 ∧
        m20 ≠ 0 ∧ m50 ≠ 0 ∧ cp ≠ 0 ∧ m20 < m50 ∧ cp < m20) ∧
    (detectSignal cp ma20 ma50 ≠ some "BUY" →
      detectSignal cp ma20 ma50 ≠ some "SELL" →
      detectSignal cp ma20 ma50 = none) := by
  rcases ma20 with _ | m20
  · simp [detectSignal]
  rcases ma50 with _ | m50
  · simp [detectSignal]
  simp only [detectSignal]
  by_cases h1 : m20 = 0 ∨ m50 = 0 ∨ cp = 0
  · rw [if_pos h1]
    rcases h1 with h | h | h <;> simp [h]
  · rw [if_neg h1]
    push_neg at h1
    obtain ⟨hz20, hz50, hzcp⟩ := h1
    by_cases h2 : m50 < m20 ∧ m20 < cp
    · rw [if_pos h2]
      refine ⟨?_, ?_, fun hB _ => absurd rfl hB⟩
      · exact ⟨fun _ => ⟨m20, m50, rfl, rfl, hz20, hz50, hzcp, h2.1, h2.2⟩,
          fun _ => rfl⟩
      · constructor
        · intro h
          exact absurd h (by simp)
        · rintro ⟨a, b, ha, hb, -, -, -, hab, hcpa⟩
          obtain rfl : a = m20 := (Option.some_inj.mp ha).symm
          obtain rfl : b = m50 := (Option.some_inj.mp hb).symm
          exact absurd hab (by linarith [h2.1])
    · rw [if_neg h2]
      by_cases h3 : m20 < m50 ∧ cp < m20
      · rw [if_pos h3]
        refine ⟨?_, ?_, fun _ hS => absurd rfl hS⟩
        · constructor
          · intro h
            exact absurd h (by simp)
          · rintro ⟨a, b, ha, hb, -, -, -, hab, hcpa⟩
            obtain rfl : a = m20 := (Option.some_inj.mp ha).symm
            obtain rfl : b = m50 := (Option.some_inj.mp hb).symm
            exact absurd hab (by linarith [h3.1])
        · exact ⟨fun _ => ⟨m20, m50, rfl, rfl, hz20, hz50, hzcp, h3.1, h3.2⟩,
            fun _ => rfl⟩
      · rw [if_neg h3]
        refine ⟨?_, ?_, fun _ _ => rfl⟩
        · constructor
          · intro h
            exact Option.noConfusion h
          · rintro ⟨a, b, ha, hb, -, -, -, hab, hcpa⟩
            obtain rfl : a = m20 := (Option.some_inj.mp ha).symm
            obtain rfl : b = m50 := (Option.some_inj.mp hb).symm
            exact absurd ⟨hab, hcpa⟩ h2
        · constructor
          · intro h
            exact Option.noConfusion h
          · rintro ⟨a, b, ha, hb, -, -, -, hab, hcpa⟩
            obtain rfl : a = m20 := (Option.some_inj.mp ha).symm
            obtain rfl : b = m50 := (Option.some_inj.mp hb).symm
            exact absurd ⟨hab, hcpa⟩ h3

/-- C8 (witness): a rising pair of averages with the price above the short
average yields "BUY" through `c8_signal_characterization`. -/
theorem c8_signal_characterization_witness :
    detectSignal 20 (some 15) (some 10) = some "BUY" :=
  (c8_signal_characterization 20 (some 15) (some 10)).1.mpr
    ⟨15, 10, rfl, rfl, by norm_num, by norm_num, by norm_num, by norm_num,
     by norm_num⟩

lemma valueOneChecked_eq (uid : ℕ) (lookup : String → Option ℚ) (p : TickerAcc) :
    valueOneChecked uid lookup p = some (valueOne uid lookup p) := by
  simp only [valueOneChecked, valueOne, sdiv]
  cases hmv : marketValueOf (lookup p.ticker) p.quantity with
  | none =>
      by_cases hq : p.quantity = 0 <;> simp [hq]
  | some m =>
      by_cases hc : p.total_cost = 0
      · by_cases hq : p.quantity = 0 <;> simp [hc, hq]
      · by_cases hq : p.quantity = 0 <;> simp [hc, hq]

lemma mapM_valueOneChecked (uid : ℕ) (lookup : String → Option ℚ) :
    ∀ pdata : List TickerAcc,
      pdata.mapM (valueOneChecked uid lookup)
        = some (pdata.map (valueOne uid lookup))
  | [] => rfl
  | p :: l => by
    rw [List.mapM_cons, valueOneChecked_eq, mapM_valueOneChecked uid lookup l]
    rfl

lemma getPortfolioSummaryFromChecked_eq (uid : ℕ) (pdata : List TickerAcc)
    (lookup : String → Option ℚ) :
    getPortfolioSummaryFromChecked uid pdata lookup
      = some (getPortfolioSummaryFrom uid pdata lookup) := by
  unfold getPortfolioSummaryFromChecked getPortfolioSummaryFrom
  rw [mapM_valueOneChecked, Option.some_bind]
  dsimp only
  split_ifs with h
  · rw [sdiv, if_neg (ne_of_gt h.1)]
    rfl
  · rfl

lemma mem_positions_iff (uid : ℕ) (pdata : List TickerAcc)
    (lookup : String → Option ℚ) (pos : Position) :
    pos ∈ (getPortfolioSummaryFrom uid pdata lookup).positions ↔
      ∃ a ∈ pdata, valueOne uid lookup a = pos := by
  simp only [getPortfolioSummaryFrom]
  exact List.mem_map

lemma quantity_pos_of_mem {trans : List Txn} {a : TickerAcc}
    (h : a ∈ computePositionsSimpleList trans) : 0 < a.quantity := by
  unfold computePositionsSimpleList at h
  have hmem := List.mem_filter.mp h
  simpa using hmem.2

/-- C7: every division in `get_portfolio_summary` is guarded — in particular
a position with cost basis 0 gets `unrealized_profit_pct = None` — so the
valuation never divides by zero (the checked valuation always returns a
value). -/
theorem c7_valuation_division_guards (db : List Txn) (uid : ℕ)
    (lookup : String → Option ℚ) :
    (∀ pos ∈ (getPortfolioSummary db uid lookup).positions,
        pos.total_cost = 0 → pos.unrealized_profit_pct = none) ∧
    getPortfolioSummaryFromChecked uid (computePositionsSimple db uid) lookup
      = some (getPortfolioSummary db uid lookup) := by
  constructor
  · intro pos hmem hc0
    rcases (mem_positions_iff uid (computePositionsSimple db uid) lookup
      pos).mp hmem with ⟨a, _, rfl⟩
    have hc : a.total_cost = 0 := hc0
    cases hmv : marketValueOf (lookup a.ticker) a.quantity with
    | none => simp [valueOne, hmv]
    | some m => simp [valueOne, hmv, hc]
  · exact getPortfolioSummaryFromChecked_eq uid (computePositionsSimple db uid)
      lookup

/-- C7 (witness): a position bought at price 0 (cost basis 0, valued at a
live price of 2) has a null `unrealized_profit_pct`. -/
theorem c7_valuation_division_guards_witness :
    (⟨1, "A", "A", 1, 0, 0, some 2, some 2, 0, some 2, none⟩ :
      Position).unrealized_profit_pct = none :=
  (c7_valuation_division_guards [⟨1, "A", "A", Side.buy, 1, 0, 0, 1⟩] 1
      (fun _ => some 2)).1
    ⟨1, "A", "A", 1, 0, 0, some 2, some 2, 0, some 2, none⟩
    (by norm_num [getPortfolioSummary, getPortfolioSummaryFrom,
      computePositionsSimple, computePositionsSimpleList, computeByTicker,
      updateMap, applyTxn, initAcc, getUserTransactions, List.insertionSort,
      List.orderedInsert, dge, valueOne, marketValueOf])
    rfl

/-- C9 (counterexample): the claim states `total_return_pct` equals the
return formula whenever `total_cost > 0` and at least one position has an
available market value.  The code instead requires `total_mv > 0`: with one
position (cost 10) and a fetched price of -5 the market value -5 is
available, yet the code returns 0 while the claimed formula gives -150. -/
theorem c9_total_return_zero_despite_market_value :
    getPortfolioSummary [⟨1, "A", "A", Side.buy, 1, 10, 0, 1⟩] 1
        (fun _ => some (-5))
      = ⟨1, 10, -5, 0, -15, 0,
         [⟨1, "A", "A", 1, 10, 10, some (-5), some (-5), 0, some (-15),
           some (-150)⟩]⟩ ∧
    ((-5 : ℚ) + 0 - 10) / 10 * 100 ≠ 0 := by
  constructor
  · norm_num [getPortfolioSummary, getPortfolioSummaryFrom,
      computePositionsSimple, computePositionsSimpleList, computeByTicker,
      updateMap, applyTxn, initAcc, getUserTransactions, List.insertionSort,
      List.orderedInsert, dge, valueOne, marketValueOf, List.filterMap_cons]
  · norm_num

/-- C9 (amended): the totals sum only over positions with an available
market value, and `total_return_pct` equals the return formula exactly when
`total_cost > 0` **and the summed market value is strictly positive** (which
coincides with "at least one position has an available market value"
whenever every fetched price is positive); otherwise it is 0. -/
theorem c9_totals_characterization (db : List Txn) (uid : ℕ)
    (lookup : String → Option ℚ) (S : PortfolioSummary)
    (hS : S = getPortfolioSummary db uid lookup) :
    S.total_market_value
      = (S.positions.filterMap (fun p => p.market_value)).sum ∧
    S.total_unrealized_profit
      = (S.positions.filterMap (fun p => p.unrealized_profit)).sum ∧
    S.total_return_pct
      = (if 0 < S.total_cost ∧ 0 < S.total_market_value then
          (S.total_market_value + S.total_realized_profit - S.total_cost)
            / S.total_cost * 100
         else 0) ∧
    ((∀ tk c, lookup tk = some c → 0 < c) →
      (0 < S.total_market_value ↔
        ∃ p ∈ S.positions, p.market_value ≠ none)) := by
  subst hS
  refine ⟨rfl, rfl, rfl, ?_⟩
  intro hpos
  constructor
  · intro hmv
    by_contra hval
    push_neg at hval
    have hnil : ((getPortfolioSummary db uid lookup).positions.filterMap
        (fun p => p.market_value)) = [] :=
      List.filterMap_eq_nil_iff.mpr hval
    have hz : (getPortfolioSummary db uid lookup).total_market_value = 0 := by
      show (((getPortfolioSummary db uid lookup).positions.filterMap
        (fun p => p.market_value)).sum) = 0
      rw [hnil]
      rfl
    rw [hz] at hmv
    exact lt_irrefl 0 hmv
  · rintro ⟨p, hp, hpne⟩
    have hall : ∀ x ∈ ((getPortfolioSummary db uid lookup).positions.filterMap
        (fun p => p.market_value)), 0 < x := by
      intro x hx
      rcases List.mem_filterMap.mp hx with ⟨q, hq, hqx⟩
      rcases (mem_positions_iff uid (computePositionsSimple db uid) lookup
        q).mp hq with ⟨a, ha, rfl⟩
      have haq : 0 < a.quantity := quantity_pos_of_mem ha
      have hqmv : marketValueOf (lookup a.ticker) a.quantity = some x := hqx
      cases hlk : lookup a.ticker with
      | none => rw [hlk] at hqmv; exact Option.noConfusion hqmv
      | some c =>
          rw [hlk] at hqmv
          by_cases hc0 : c = 0
          · simp [marketValueOf, hc0] at hqmv
          · simp only [marketValueOf, if_neg hc0] at hqmv
            have hx' : c * a.quantity = x := Option.some_inj.mp hqmv
            have hcpos : 0 < c := hpos a.ticker c hlk
            rw [← hx']
            exact mul_pos hcpos haq
    rcases hpm : p.market_value with _ | m
    · exact absurd hpm hpne
    · have hmem : m ∈ ((getPortfolioSummary db uid lookup).positions.filterMap
          (fun p => p.market_value)) :=
        List.mem_filterMap.mpr ⟨p, hp, hpm⟩
      have hne : ((getPortfolioSummary db uid lookup).positions.filterMap
          (fun p => p.market_value)) ≠ [] :=
        List.ne_nil_of_mem hmem
      exact List.sum_pos _ hall hne

/-- C9 (witness): `c9_totals_characterization` instantiated on a one-buy
ledger with an always-positive price fetch. -/
theorem c9_totals_characterization_witness :
    0 < (getPortfolioSummary [⟨1, "A", "A", Side.buy, 1, 10, 0, 1⟩] 1
          (fun _ => some 2)).total_market_value ↔
      ∃ p ∈ (getPortfolioSummary [⟨1, "A", "A", Side.buy, 1, 10, 0, 1⟩] 1
          (fun _ => some 2)).positions, p.market_value ≠ none :=
  (c9_totals_characterization [⟨1, "A", "A", Side.buy, 1, 10, 0, 1⟩] 1
      (fun _ => some 2) _ rfl).2.2.2
    (fun _ c hc => (Option.some_inj.mp hc) ▸ (by norm_num : (0 : ℚ) < 2))

/-- C10 (counterexample): the claim states `market_value` is
`current_price * total_quantity` whenever a price was obtained.  A fetched
price of 0 is falsy in Python, so the code leaves `market_value = None`
even though a price was obtained (the claim would require `some 0`). -/
theorem c10_zero_price_market_value_none :
    (getPortfolioSummary [⟨1, "A", "A", Side.buy, 1, 10, 0, 1⟩] 1
        (fun _ => some 0)).positions
      = [⟨1, "A", "A", 1, 10, 10, some 0, none, 0, none, none⟩] ∧
    (⟨1, "A", "A", 1, 10, 10, some 0, none, 0, none, none⟩ :
        Position).market_value
      ≠ some (0 * (⟨1, "A", "A", 1, 10, 10, some 0, none, 0, none, none⟩ :
        Position).total_quantity) := by
  constructor
  · norm_num [getPortfolioSummary, getPortfolioSummaryFrom,
      computePositionsSimple, computePositionsSimpleList, computeByTicker,
      updateMap, applyTxn, initAcc, getUserTransactions, List.insertionSort,
      List.orderedInsert, dge, valueOne, marketValueOf]
  · simp

/-- C10 (amended): every `Position` returned by `get_portfolio_summary` has
a strictly positive quantity, `average_buy_price = total_cost /
total_quantity`, `current_price` equal to the fetched quote, and
`market_value = current_price * total_quantity` exactly when a price was
obtained **and is nonzero** (a missing or zero quote leaves it null). -/
theorem c10_position_invariants (db : List Txn) (uid : ℕ)
    (lookup : String → Option ℚ) (pos : Position)
    (hmem : pos ∈ (getPortfolioSummary db uid lookup).positions) :
    0 < pos.total_quantity ∧
    pos.average_buy_price = pos.total_cost / pos.total_quantity ∧
    pos.current_price = lookup pos.ticker ∧
    pos.market_value = marketValueOf (lookup pos.ticker) pos.total_quantity := by
  rcases (mem_positions_iff uid (computePositionsSimple db uid) lookup
    pos).mp hmem with ⟨a, ha, rfl⟩
  have hq : 0 < a.quantity := quantity_pos_of_mem ha
  refine ⟨hq, ?_, rfl, rfl⟩
  show (if a.quantity = 0 then 0 else a.total_cost / a.quantity)
    = a.total_cost / a.quantity
  rw [if_neg (ne_of_gt hq)]

/-- C10 (witness): the position invariants hold on a one-buy ledger valued
at price 2. -/
theorem c10_position_invariants_witness :
    0 < (⟨1, "A", "A", 1, 10, 10, some 2, some 2, 0, some (-8), some (-80)⟩ :
      Position).total_quantity :=
  (c10_position_invariants [⟨1, "A", "A", Side.buy, 1, 10, 0, 1⟩] 1
      (fun _ => some 2)
      ⟨1, "A", "A", 1, 10, 10, some 2, some 2, 0, some (-8), some (-80)⟩
      (by norm_num [getPortfolioSummary, getPortfolioSummaryFrom,
        computePositionsSimple, computePositionsSimpleList, computeByTicker,
        updateMap, applyTxn, initAcc, getUserTransactions, List.insertionSort,
        List.orderedInsert, dge, valueOne, marketValueOf])).1

end RTStock
